import Mathlib

/-!
Verification development for the NekTests regression-test harness.

The harness (`UnitTest_Analysis_Dynamic.py`) scans solver log files for
declared numeric values and phrases and reports per-example pass/fail lines;
`NekCustomSteps.py` is the buildbot step adapter that parses the harness's
output.  This file gives a shallow embedding of both modules and proves the
testable properties of the specification against it.

Modelling conventions:
* Python floats are modelled as exact rationals (`ℚ`); `float(tok)` on a
  whitespace-free token is modelled by `pyFloat`, which accepts the
  sign/digits/point/exponent literal forms (the `inf`/`nan` spellings are not
  modelled; no token in any claim uses them).
* File I/O is modelled by passing `Option (List String)`: `some lines` is a
  readable log with its lines, `none` is a log whose `open` raises `IOError`.
* The script targets Python 2 (`collections.OrderedDict`, list-returning
  `.keys()` snapshot); the scan loop is embedded accordingly.
-/

/-- The characters of `n` in decimal, interpreted as a natural number
(used for both `float` and `int` literal parsing). -/
def digitsToNat (l : List Char) : Nat :=
  l.foldl (fun a c => 10 * a + (c.toNat - 48)) 0

/-- All characters are decimal digits. -/
def allDigits (l : List Char) : Bool := l.all Char.isDigit

/-- Leading `+`/`-` sign of a Python numeric literal, with the rest. -/
def parseSign : List Char → Int × List Char
  | '+' :: r => (1, r)
  | '-' :: r => (-1, r)
  | r => (1, r)

/-- Exponent part of a float literal (what follows `e`/`E`). -/
def parseExp (l : List Char) : Option Int :=
  let p := parseSign l
  if (!p.2.isEmpty) && allDigits p.2 then some (p.1 * digitsToNat p.2) else none

/-- Mantissa of a float literal: `digits`, `digits.digits`, `digits.` or
`.digits`; returns the digit string's value and the number of fractional
digits (so the mantissa's exact value is the first over `10 ^` the second). -/
def parseMantissa (l : List Char) : Option (Nat × Nat) :=
  let ip := l.takeWhile (fun c => c != '.')
  let rest := l.dropWhile (fun c => c != '.')
  let fp : List Char := match rest with
    | [] => []
    | _ :: r => r
  if allDigits ip && allDigits fp && !(ip ++ fp).isEmpty then
    some (digitsToNat (ip ++ fp), fp.length)
  else none

/-- Python `float(s)` on a whitespace-free token: optional sign, decimal
mantissa, optional `e`/`E` exponent; the exact value
`sign * mantissaDigits * 10 ^ (exponent - fractionalDigits)` is assembled
with one `mkRat`.  `none` models `ValueError`. -/
def pyFloat (s : String) : Option ℚ :=
  let p := parseSign s.data
  let mant := p.2.takeWhile (fun c => c != 'e' && c != 'E')
  let rest := p.2.dropWhile (fun c => c != 'e' && c != 'E')
  let e : Option Int := match rest with
    | [] => some 0
    | _ :: r => parseExp r
  match parseMantissa mant, e with
  | some mf, some ev =>
    let ex : Int := ev - (mf.2 : Int)
    some (if 0 ≤ ex then mkRat (p.1 * ((mf.1 * 10 ^ ex.toNat : Nat) : Int)) 1
          else mkRat (p.1 * (mf.1 : Int)) (10 ^ ex.natAbs))
  | _, _ => none

/-- Python `int(s)`: optional sign and decimal digits; `none` models
`ValueError`. -/
def pyInt (s : String) : Option Int :=
  let p := parseSign s.data
  if (!p.2.isEmpty) && allDigits p.2 then some (p.1 * digitsToNat p.2) else none

/-- Accumulator pass for `pySplit`: `acc` holds the current token's
characters in reverse. -/
def pySplitAux : List Char → List Char → List String
  | [], acc => if acc.isEmpty then [] else [⟨acc.reverse⟩]
  | c :: r, acc =>
    if c.isWhitespace then
      if acc.isEmpty then pySplitAux r [] else ⟨acc.reverse⟩ :: pySplitAux r []
    else pySplitAux r (c :: acc)

/-- Python `s.split()` (no argument): split on whitespace runs, dropping
empty fields. -/
def pySplit (s : String) : List String := pySplitAux s.data []

/-- Accumulator pass for `pySplitSep`. -/
def pySplitSepAux (sep : Char) : List Char → List Char → List String
  | [], acc => [⟨acc.reverse⟩]
  | c :: r, acc =>
    if c = sep then ⟨acc.reverse⟩ :: pySplitSepAux sep r []
    else pySplitSepAux sep r (c :: acc)

/-- Python `s.split(sep)` for a one-character separator (the adapter only
splits on `"/"`): fields between separators, empties kept. -/
def pySplitSep (sep : Char) (s : String) : List String := pySplitSepAux sep s.data []

/-- Python list indexing `toks[i]` with a possibly negative index;
`none` models `IndexError`. -/
def pyIdx (toks : List String) (i : Int) : Option String :=
  if 0 ≤ i then toks.get? i.toNat
  else if i.natAbs ≤ toks.length then toks.get? (toks.length - i.natAbs)
  else none

/-- Python substring containment `pat in s`. -/
def strContains (s pat : String) : Bool := decide (List.IsInfix pat.data s.data)

/-- `float(line.split()[-col])` of `RunTestClass.setUpClass`: take the
column-th token counted from the end of the whitespace-split line (Python
negation of the stored non-negative column) and parse it as a float.
`none` models the caught `ValueError`/`IndexError`. -/
def extract (line : String) (col : Nat) : Option ℚ :=
  match pyIdx (pySplit line) (-(col : Int)) with
  | some tok => pyFloat tok
  | none => none

/-- The `TestVals` record of `UnitTest_Analysis_Dynamic.py`: target value,
tolerance, column (from the right) and the value found in the log. -/
structure TestVals where
  target : ℚ
  tolerance : ℚ
  col : Nat
  testVal : Option ℚ
deriving DecidableEq

/-- The class state of a `RunTestClass` subclass during/after the scan:
`missingTests` and `foundTests`, as ordered association lists. -/
structure ScanState where
  missing : List (String × TestVals)
  found : List (String × TestVals)
deriving DecidableEq

/-- `addTests`: the declared `(testName, target, tolerance, col)` tuples
become the initial `missingTests` entries (`testVal` unset). -/
def initTests (specs : List (String × ℚ × ℚ × Nat)) : List (String × TestVals) :=
  specs.map (fun t => (t.1, ⟨t.2.1, t.2.2.1, t.2.2.2, none⟩))

/-- One spec against one line, as in the inner loop of `setUpClass`:
`if testName in line: try: testVal = float(line.split()[-col]) ...`.
`some v` means the spec is claimed by this line with value `v`; `none`
means no substring match, or a caught `ValueError`/`IndexError`. -/
def lineHit (line name : String) (col : Nat) : Option ℚ :=
  if strContains line name then extract line col else none

/-- The inner loop of `setUpClass` over one line: each currently-missing
entry is tested against the line (over a snapshot of the key list, so each
entry is processed exactly once and independently); claimed entries move to
`found` with `testVal` set, the rest stay missing. -/
def scanLine (line : String) :
    List (String × TestVals) → List (String × TestVals) × List (String × TestVals)
  | [] => ([], [])
  | p :: rest =>
    let r := scanLine line rest
    match lineHit line p.1 p.2.col with
    | some v => (r.1, (p.1, { p.2 with testVal := some v }) :: r.2)
    | none => (p :: r.1, r.2)

/-- The outer loop of `setUpClass`: fold `scanLine` over the file's lines,
accumulating `foundTests`. -/
def scanLog : List String → ScanState → ScanState
  | [], st => st
  | l :: ls, st =>
    let r := scanLine l st.missing
    scanLog ls ⟨r.1, st.found ++ r.2⟩

/-- Specification-side description (for comparison with the scan): the float
parse of the designated column of the first line containing `name` as a
substring, among lines where that column parses as a float. -/
def firstHit (name : String) (col : Nat) : List String → Option ℚ
  | [] => none
  | l :: ls =>
    match lineHit l name col with
    | some v => some v
    | none => firstHit name col ls

/-- `setUpClass` end-to-end: on a readable log, scan it; on `IOError`,
leave every declared test in `missingTests`. -/
def runScan (log : Option (List String)) (specs : List (String × ℚ × ℚ × Nat)) :
    ScanState :=
  match log with
  | none => ⟨initTests specs, []⟩
  | some lines => scanLog lines ⟨initTests specs, []⟩

/-- A `"[%s]%s" % (exampleName, rest)`-style message: every diagnostic the
harness prints opens with the bracketed example name. -/
def bkt (ex rest : String) : String := "[" ++ ex ++ "]" ++ rest

/-- The two lines printed when opening the logfile raises `IOError`
(`setUpClass` of `RunTestClass`, and the tearDowns of the phrase classes). -/
def skipMsgs (ex : String) : List String :=
  [bkt ex "...Sorry, I must skip this test.",
   bkt ex "...The logfile is missing or doesn't have the correct name..."]

/-- `re.sub(r'[_\W]+', '_', s)`: each maximal run of characters that are not
ASCII letters or digits (underscore included) collapses to one `_`.
The pending flag records an unemitted run. -/
def sanitizeAux : List Char → Bool → List Char
  | [], pend => if pend then ['_'] else []
  | c :: r, pend =>
    if c.isAlphanum then
      (if pend then ['_', c] else [c]) ++ sanitizeAux r false
    else sanitizeAux r true

/-- Identifier sanitization used for dynamic method/class names. -/
def sanitizeName (s : String) : String := ⟨sanitizeAux s.data false⟩

/-- `'%02d' % i`. -/
def pad2 (i : Nat) : String := if i < 10 then "0" ++ toString i else toString i

/-- The generated method name `re.sub(r'[_\W]+', '_', 'test_%s_%02d' % (testName, i))`. -/
def validName (i : Nat) (testName : String) : String :=
  sanitizeName ("test_" ++ testName ++ "_" ++ pad2 i)

/-- Lexicographic comparison of character lists by code point (Python `<`
on strings). -/
def charListLt : List Char → List Char → Bool
  | [], [] => false
  | [], _ :: _ => true
  | _ :: _, [] => false
  | a :: as, b :: bs => if a < b then true else if b < a then false else charListLt as bs

/-- Python string `<`. -/
def strLtB (a b : String) : Bool := charListLt a.data b.data

/-- Stable insertion of `a` into an already-sorted list, ordered by the
string key (models the sorted order in which `unittest` runs test methods). -/
def insertSorted (key : α → String) (a : α) : List α → List α
  | [] => [a]
  | b :: r => if strLtB (key b) (key a) then b :: insertSorted key a r else a :: b :: r

/-- Stable sort by a string key. -/
def sortByKey (key : α → String) : List α → List α
  | [] => []
  | a :: r => insertSorted key a (sortByKey key r)

/-- The line `print("[%s] %s : %s" % (exampleName, testName, testVal))` a
generated test method emits when its value was found. -/
def testPrintLine (ex n v : String) : String := bkt ex (" " ++ (n ++ (" : " ++ v)))

/-- The lines printed by the generated test methods, in the order `unittest`
runs them (sorted by generated method name): a method prints its found value,
or nothing when its name is still missing (`assertIn` fails first). -/
def testPrints (ex : String) (declared : List (String × TestVals)) (st : ScanState) :
    List String :=
  (sortByKey (fun p => validName p.1 p.2.1) declared.enum).filterMap
    (fun p =>
      match st.found.lookup p.2.1 with
      | some tv =>
        some (testPrintLine ex p.2.1
          (match tv.testVal with | some v => toString v | none => "None"))
      | none => none)

/-- Rational subtraction, assembled with one `mkRat` (kernel-computable;
`qsub_eq` identifies it with `a - b`). -/
def qsub (a b : ℚ) : ℚ :=
  mkRat (a.num * (b.den : Int) - b.num * (a.den : Int)) (a.den * b.den)

/-- Rational absolute value (kernel-computable; `qabs_eq` identifies it
with `|a|`). -/
def qabs (a : ℚ) : ℚ := mkRat ((a.num.natAbs : Nat) : Int) a.den

/-- `assertLess(abs(testVal - target), tolerance)` of a generated test
method (see `inTol_iff` for the statement in terms of `|· - ·|`). -/
def inTol (tv : TestVals) : Bool :=
  match tv.testVal with
  | some v => decide (qabs (qsub v tv.target) < tv.tolerance)
  | none => false

/-- `passedTests` after all generated test methods ran: the found entries
whose value lies within tolerance of the target. -/
def passedOf (st : ScanState) : List (String × TestVals) :=
  st.found.filter (fun p => inTol p.2)

/-- Python `sep.join(items)`. -/
def joinSep (sep : String) : List String → String
  | [] => ""
  | [x] => x
  | x :: r => x ++ (sep ++ joinSep sep r)

/-- The `"[%s]...%s were not found..."` line of `tearDownClass`, listing the
comma-joined still-missing test names (`", ".join(cls.missingTests)`). -/
def notFoundLine (ex : String) (st : ScanState) : String :=
  bkt ex ("..." ++ (joinSep ", " (st.missing.map Prod.fst) ++ " were not found..."))

/-- `RunTestClass.tearDownClass`: report missing tests if any, then emit the
example's single summary line (`F` when some test is missing or some found
test did not pass, `.` otherwise). -/
def runTearDown (ex : String) (st : ScanState) (passedCount : Nat) : List String :=
  (if 0 < st.missing.length then
    [bkt ex "...I couldn't find all the requested value in the log file...",
     notFoundLine ex st]
   else []) ++
  (if passedCount < st.found.length ∨ 0 < st.missing.length
   then [ex ++ " : F "] else [ex ++ " : ."])

/-- Everything a `RunTestClass` example prints on stdout, in order: the
`IOError` diagnostics (missing log only), the generated methods' value lines,
then the tearDown report.  The `logfile` path is carried as in the class but,
as in the source, never appears in any printed line; `log` is the outcome of
opening it. -/
def runOutput (ex logfile : String) (log : Option (List String))
    (specs : List (String × ℚ × ℚ × Nat)) : List String :=
  let st := runScan log specs
  (match log with | none => skipMsgs ex | some _ => [])
  ++ testPrints ex (initTests specs) st
  ++ runTearDown ex st (passedOf st).length

/-- `setUpClass` of the phrase classes: whether some line of the log
contains the keyword (the loop breaks at the first hit). -/
def phraseFound (kw : String) (lines : List String) : Bool :=
  lines.any (fun l => strContains l kw)

/-- `foundPhrases` of `FindPhraseClass`/`DFdPhraseClass` after setup:
`[keyword]` when the readable log contains it, else `[]` (also `[]` when
`IOError` was raised). -/
def dfdFoundPhrases (kw : String) (log : Option (List String)) : List String :=
  match log with
  | none => []
  | some lines => if phraseFound kw lines then [kw] else []

/-- `test_DFdPhrase` (`assertNotIn(keyword, foundPhrases)`): the check fails
exactly when the keyword was recorded. -/
def dfdCheckFails (kw : String) (log : Option (List String)) : Bool :=
  (dfdFoundPhrases kw log).contains kw

/-- Stdout of a `DFdPhraseClass` example (its tearDown; the test method
prints nothing). -/
def dfdOutput (ex logfile kw : String) (log : Option (List String)) : List String :=
  match log with
  | none => skipMsgs ex ++ [ex ++ " : F "]
  | some lines =>
    if phraseFound kw lines then [bkt ex (" : " ++ kw), ex ++ " : F"]
    else [ex ++ " : . "]

/-- Stdout of a `FindPhraseClass` example (its tearDown). -/
def findPhraseOutput (ex logfile kw : String) (log : Option (List String)) : List String :=
  match log with
  | none => skipMsgs ex ++ [ex ++ " : F "]
  | some lines =>
    [bkt ex (" : " ++ kw)] ++
    (if phraseFound kw lines then [ex ++ " : ."]
     else [bkt ex ("...I couldn't find '" ++ (kw ++ "' in the logfile...")),
           ex ++ " : F "])

/-- The `2d_eig` spec table of `__main__`. -/
def eigTests : List (String × ℚ × ℚ × Nat) :=
  [(" 2   ", 0, 21, 6), (" 3   ", 0, 39, 6), (" 6  ", 0, 128, 6), (" 10  ", 0, 402, 6)]

/-- The `axi` spec table of `__main__`. -/
def axiTests : List (String × ℚ × ℚ × Nat) :=
  [("total solver time", 1/10, 2, 2), ("PRES: ", 0, 76, 4)]

/-- The spec table of the deliberately-missing-log `Run` in `__main__`. -/
def missLogTests : List (String × ℚ × ℚ × Nat) :=
  [("total solver time", 1/10, 2, 2), ("PRES: ", 0, 76, 4)]

/-- Everything the `__main__` block of `UnitTest_Analysis_Dynamic.py` prints
on stdout: the section headers (printed while the suite is assembled), then
each example's output in suite order.  Each `Option (List String)` argument
is the outcome of opening the corresponding log path.  (The `TextTestRunner`
writes its own progress report to stderr, not stdout.) -/
def mainOutput (tools eig b3d1 b3d2 axi mrun mfp : Option (List String)) : List String :=
  ["\nBEGIN TESTING TOOLS", "\n\n2d_eig Example", "\n\n3Dbox Example",
   "\n\naxi Example", "\n\\RunMissingLog", "\n\\FindPhraseMissingLog"]
  ++ dfdOutput "Tools" "./tools.out" "Error " tools
  ++ runOutput "Example 2d_eig/SRL: Serial-iter/err" "./srlLog/eig1.err" eig eigTests
  ++ findPhraseOutput "Example 3dbox/SRL: Serial" "./srlLog/b3d.log.1"
      "end of time-step loop" b3d1
  ++ findPhraseOutput "Example 3dbox/SRL2: Serial" "./srl2Log/b3d.log.1"
      "end of time-step loop" b3d2
  ++ runOutput "Example axi/SRL: Serial-time/iter" "./srlLog/axi.log.1" axi axiTests
  ++ runOutput "Example Run missingLog" "./srlLog/foobar" mrun missLogTests
  ++ findPhraseOutput "Example FindPhrase missingLog" "./srlLog/foobar"
      "end of time-step loop" mfp

/-- Buildbot step results used by `NekCustomSteps.py`. -/
inductive BuildResult where
  | success | warnings | failure | skipped | exception
deriving DecidableEq

/-- `NekTestCounter.outLineReceived`: on a line containing `"Test Summary"`,
set `(numPass, numTotal)` from the integers on either side of the first `/`
of the line's fourth whitespace token; other lines leave the state.  `none`
models the uncaught `IndexError`/`ValueError` on a malformed summary line. -/
def outLineReceived (st : Int × Int) (line : String) : Option (Int × Int) :=
  if strContains line "Test Summary" then
    match (pySplit line).get? 3 with
    | none => none
    | some tok =>
      match (pySplitSep '/' tok).get? 0, (pySplitSep '/' tok).get? 1 with
      | some a, some b =>
        match pyInt a, pyInt b with
        | some p, some t => some (p, t)
        | _, _ => none
      | _, _ => none
  else some st

/-- `NekStepP.evaluateCommand` / `NekStepS.evaluateCommand`. -/
def evaluateCommand (numPass numTotal : Int) : BuildResult :=
  if numPass < numTotal then .failure else .success

/-- Whether `s` is one of the two per-example summary lines
`"<ex> : ."` / `"<ex> : F "` that `RunTestClass.tearDownClass` can emit. -/
def isSummaryLine (ex s : String) : Bool :=
  decide (s = ex ++ " : ." ∨ s = ex ++ " : F ")

/-! ## Bridging lemmas for the computable rational helpers -/

theorem qsub_eq (a b : ℚ) : qsub a b = a - b := by
  rw [qsub, Rat.mkRat_eq_div]
  have ha : ((a.den : ℚ)) ≠ 0 := by exact_mod_cast a.den_nz
  have hb : ((b.den : ℚ)) ≠ 0 := by exact_mod_cast b.den_nz
  conv_rhs => rw 
    [show a = (a.num : ℚ) / (a.den : ℚ) from (Rat.num_div_den a).symm,
     show b = (b.num : ℚ) / (b.den : ℚ) from (Rat.num_div_den b).symm]
  push_cast
  field_simp
  ring

theorem qabs_eq (a : ℚ) : qabs a = |a| := by
  rw [qabs, Rat.mkRat_eq_div]
  have ha : ((a.den : ℚ)) ≠ 0 := by exact_mod_cast a.den_nz
  have h2 : |a| = |(a.num : ℚ)| / |(a.den : ℚ)| := by
    rw [← abs_div, Rat.num_div_den]
  rw [h2, abs_of_nonneg (by positivity : (0:ℚ) ≤ (a.den : ℚ))]
  congr 1
  exact_mod_cast (Int.abs_eq_natAbs a.num).symm

/-- `inTol` states the generated test method's assertion
`abs(testVal - target) < tolerance` on the found value. -/
theorem inTol_iff (tv : TestVals) :
    inTol tv = true ↔ ∃ v, tv.testVal = some v ∧ |v - tv.target| < tv.tolerance := by
  cases h : tv.testVal with
  | none => simp [inTol, h]
  | some v => simp only [inTol, h, decide_eq_true_eq, qabs_eq, qsub_eq, Option.some_inj]
              constructor
              · intro hlt
                exact ⟨v, rfl, hlt⟩
              · rintro ⟨w, rfl, hlt⟩
                exact hlt

/-! ## Characterization of one scan step and of the whole scan -/

theorem scanLine_mem_fst {line : String} {m : List (String × TestVals)}
    {q : String × TestVals} :
    q ∈ (scanLine line m).1 ↔ q ∈ m ∧ lineHit line q.1 q.2.col = none := by
  induction m with
  | nil => simp [scanLine]
  | cons p rest ih =>
    cases hh : lineHit line p.1 p.2.col with
    | some v =>
      simp only [scanLine, hh]
      rw [ih]
      constructor
      · rintro ⟨hq, hn⟩
        exact ⟨List.mem_cons_of_mem _ hq, hn⟩
      · rintro ⟨hq, hn⟩
        rcases List.mem_cons.mp hq with rfl | hq2
        · rw [hh] at hn
          cases hn
        · exact ⟨hq2, hn⟩
    | none =>
      simp only [scanLine, hh]
      rw [List.mem_cons, ih, List.mem_cons]
      constructor
      · rintro (rfl | ⟨hq, hn⟩)
        · exact ⟨Or.inl rfl, hh⟩
        · exact ⟨Or.inr hq, hn⟩
      · rintro ⟨rfl | hq, hn⟩
        · exact Or.inl rfl
        · exact Or.inr ⟨hq, hn⟩

theorem scanLine_mem_snd {line : String} {m : List (String × TestVals)}
    {q : String × TestVals} :
    q ∈ (scanLine line m).2 ↔
      ∃ p ∈ m, ∃ v, lineHit line p.1 p.2.col = some v ∧
        q = (p.1, { p.2 with testVal := some v }) := by
  induction m with
  | nil => simp [scanLine]
  | cons p rest ih =>
    cases hh : lineHit line p.1 p.2.col with
    | some v =>
      simp only [scanLine, hh]
      rw [List.mem_cons, ih]
      constructor
      · rintro (rfl | ⟨p2, hp2, w, hw, rfl⟩)
        · exact ⟨p, List.mem_cons_self p rest, v, hh, rfl⟩
        · exact ⟨p2, List.mem_cons_of_mem _ hp2, w, hw, rfl⟩
      · rintro ⟨p2, hp2, w, hw, rfl⟩
        rcases List.mem_cons.mp hp2 with rfl | hp3
        · rw [hh] at hw
          cases hw
          exact Or.inl rfl
        · exact Or.inr ⟨p2, hp3, w, hw, rfl⟩
    | none =>
      simp only [scanLine, hh]
      rw [ih]
      constructor
      · rintro ⟨p2, hp2, w, hw, rfl⟩
        exact ⟨p2, List.mem_cons_of_mem _ hp2, w, hw, rfl⟩
      · rintro ⟨p2, hp2, w, hw, rfl⟩
        rcases List.mem_cons.mp hp2 with rfl | hp3
        · rw [hh] at hw
          cases hw
        · exact ⟨p2, hp3, w, hw, rfl⟩

theorem scanLog_found_mono :
    ∀ (ls : List String) (st : ScanState) (q : String × TestVals),
      q ∈ st.found → q ∈ (scanLog ls st).found
  | [], _, _, h => h
  | l :: ls, st, q, h =>
    scanLog_found_mono ls ⟨(scanLine l st.missing).1, st.found ++ (scanLine l st.missing).2⟩
      q (List.mem_append_left _ h)

/-- Soundness of the scan: anything in `foundTests` after the scan was
already found, or is a missing entry claimed at its first qualifying line. -/
theorem scanLog_found_mem :
    ∀ (ls : List String) (st : ScanState) (q : String × TestVals),
      q ∈ (scanLog ls st).found →
      q ∈ st.found ∨
        ∃ p ∈ st.missing, ∃ v, firstHit p.1 p.2.col ls = some v ∧
          q = (p.1, { p.2 with testVal := some v }) := by
  intro ls
  induction ls with
  | nil =>
    intro st q h
    exact Or.inl h
  | cons l ls ih =>
    intro st q h
    rcases ih _ q h with hf | ⟨p, hp, v, hfh, rfl⟩
    · rcases List.mem_append.mp hf with hf1 | hf2
      · exact Or.inl hf1
      · rcases scanLine_mem_snd.mp hf2 with ⟨p, hp, v, hv, rfl⟩
        refine Or.inr ⟨p, hp, v, ?_, rfl⟩
        simp [firstHit, hv]
    · rcases scanLine_mem_fst.mp hp with ⟨hp0, hnone⟩
      refine Or.inr ⟨p, hp0, v, ?_, rfl⟩
      simp [firstHit, hnone, hfh]

/-- Completeness of the scan: a missing entry whose first qualifying line
exists is found with exactly that line's value. -/
theorem scanLog_found_of_firstHit :
    ∀ (ls : List String) (st : ScanState) (p : String × TestVals) (v : ℚ),
      p ∈ st.missing → firstHit p.1 p.2.col ls = some v →
      (p.1, { p.2 with testVal := some v }) ∈ (scanLog ls st).found := by
  intro ls
  induction ls with
  | nil =>
    intro st p v _ hfh
    cases hfh
  | cons l ls ih =>
    intro st p v hp hfh
    cases hh : lineHit l p.1 p.2.col with
    | some w =>
      rw [firstHit, hh] at hfh
      injection hfh with hwv
      subst hwv
      exact scanLog_found_mono ls _ _
        (List.mem_append_right _ (scanLine_mem_snd.mpr ⟨p, hp, w, hh, rfl⟩))
    | none =>
      rw [firstHit, hh] at hfh
      exact ih ⟨(scanLine l st.missing).1, st.found ++ (scanLine l st.missing).2⟩ p v
        (scanLine_mem_fst.mpr ⟨hp, hh⟩) hfh

/-- One scan step only redistributes the missing entries' names. -/
theorem scanLine_names_perm (line : String) (m : List (String × TestVals)) :
    List.Perm
      ((scanLine line m).1.map Prod.fst ++ (scanLine line m).2.map Prod.fst)
      (m.map Prod.fst) := by
  induction m with
  | nil => simp [scanLine]
  | cons p rest ih =>
    cases hh : lineHit line p.1 p.2.col with
    | some v =>
      simp only [scanLine, hh, List.map_cons]
      exact (List.perm_middle).trans (List.Perm.cons p.1 ih)
    | none =>
      simp only [scanLine, hh, List.map_cons, List.cons_append]
      exact List.Perm.cons p.1 ih

/-- The whole scan only redistributes names between `missingTests` and
`foundTests`. -/
theorem scanLog_names_perm :
    ∀ (ls : List String) (st : ScanState),
      List.Perm
        ((scanLog ls st).missing.map Prod.fst ++ (scanLog ls st).found.map Prod.fst)
        (st.missing.map Prod.fst ++ st.found.map Prod.fst) := by
  intro ls
  induction ls with
  | nil =>
    intro st
    exact List.Perm.refl _
  | cons l ls ih =>
    intro st
    refine (ih _).trans ?_
    simp only [List.map_append]
    refine (List.Perm.append_left _ List.perm_append_comm).trans ?_
    rw [← List.append_assoc]
    exact List.Perm.append_right _ (scanLine_names_perm l st.missing)

/-! ## String-level helpers for telling the printed lines apart -/

theorem strAppend_left_cancel {a b c : String} (h : a ++ b = a ++ c) : b = c := by
  have hd : a.data ++ b.data = a.data ++ c.data := by
    rw [← String.data_append, ← String.data_append, h]
  have hbc : b.data = c.data := List.append_cancel_left hd
  cases b with
  | mk db =>
    cases c with
    | mk dc => exact congrArg String.mk hbc

theorem bkt_len (ex r : String) : (bkt ex r).length = ex.length + r.length + 2 := by
  have h1 : ("[" : String).length = 1 := rfl
  have h2 : ("]" : String).length = 1 := rfl
  simp [bkt, String.length_append, h1, h2]
  omega

theorem bkt_inj {ex r1 r2 : String} (h : bkt ex r1 = bkt ex r2) : r1 = r2 := by
  unfold bkt at h
  rw [String.append_assoc, String.append_assoc,
    String.append_assoc, String.append_assoc] at h
  exact strAppend_left_cancel (strAppend_left_cancel (strAppend_left_cancel h))

/-- A string starting with a space never equals one starting with a dot. -/
theorem space_ne_dots (x y : String) : " " ++ x ≠ "..." ++ y := by
  intro h
  have hd : (" " ++ x).data = ("..." ++ y).data := by rw [h]
  rw [String.data_append, String.data_append] at hd
  have h1 : (" ").data = [' '] := rfl
  have h2 : ("...").data = ['.', '.', '.'] := rfl
  rw [h1, h2] at hd
  simp at hd

/-- If `x ++ s = t` then `s` is the length-`s` suffix of `t` (used to refute
equalities against concrete strings by `decide`). -/
theorem append_drop_suffix {x s t : String} (h : x ++ s = t) :
    t.data.drop (t.data.length - s.data.length) = s.data := by
  have hd : x.data ++ s.data = t.data := by rw [← String.data_append, h]
  rw [← hd, List.length_append, Nat.add_sub_cancel]
  exact List.drop_left x.data s.data

theorem ne_of_length_ne {a b : String} (h : a.length ≠ b.length) : a ≠ b :=
  fun e => h (congrArg String.length e)

/-- The missing-names report line never coincides with the `IOError` skip
line, whatever the name list is. -/
theorem notFound_rest_ne_skip (names : String) :
    ("..." ++ (names ++ " were not found...")) ≠ "...Sorry, I must skip this test." := by
  intro h
  have h2 : ("..." ++ names) ++ " were not found..." = "...Sorry, I must skip this test." := by
    rw [String.append_assoc]
    exact h
  have h3 := append_drop_suffix h2
  revert h3
  decide

/-- ... nor with the second skip line. -/
theorem notFound_rest_ne_skip2 (names : String) :
    ("..." ++ (names ++ " were not found...")) ≠
      "...The logfile is missing or doesn't have the correct name..." := by
  intro h
  have h2 : ("..." ++ names) ++ " were not found..." = "...The logfile is missing or doesn't have the correct name..." := by
    rw [String.append_assoc]
    exact h
  have h3 := append_drop_suffix h2
  revert h3
  decide

/-- ... nor with the could-not-find-all banner. -/
theorem notFound_rest_ne_banner (names : String) :
    ("..." ++ (names ++ " were not found...")) ≠
      "...I couldn't find all the requested value in the log file..." := by
  intro h
  have h2 : ("..." ++ names) ++ " were not found..." = "...I couldn't find all the requested value in the log file..." := by
    rw [String.append_assoc]
    exact h
  have h3 := append_drop_suffix h2
  revert h3
  decide

/-! ## Claim theorems -/

/-- C1: every `ValueSpec` found by a scan records the float parse of its
designated column of the first line containing its name as a substring,
among the lines where that column parses as a float. -/
theorem c1_found_value_is_first_qualifying_line
    (lines : List String) (specs : List (String × ℚ × ℚ × Nat))
    (n : String) (tv : TestVals)
    (h : (n, tv) ∈ (runScan (some lines) specs).found) :
    ∃ t tol c v, (n, t, tol, c) ∈ specs ∧ firstHit n c lines = some v ∧
      tv = ⟨t, tol, c, some v⟩ := by
  rcases scanLog_found_mem lines ⟨initTests specs, []⟩ (n, tv) h with hf | hfound
  · cases hf
  · rcases hfound with ⟨p, hp, v, hfh, heq⟩
    rcases List.mem_map.mp hp with ⟨⟨n0, t, tol, c⟩, ht0, hpt⟩
    subst hpt
    injection heq with h1 h2
    subst h1
    subst h2
    exact ⟨t, tol, c, v, ht0, hfh, rfl⟩

/-- C1 witness: the spec-table entry `('iters 2', 4.0, 0.5, 1)` against the
log line `"iters 2   0  21  6  3.9"` records 3.9, the parse of the last
token of that (first and only) qualifying line. -/
theorem c1_witness :
    ∃ t tol c v,
      ("iters 2", t, tol, c) ∈ [(("iters 2" : String), (4 : ℚ), mkRat 1 2, (1 : Nat))] ∧
      firstHit "iters 2" c ["iters 2   0  21  6  3.9"] = some v ∧
      (⟨4, mkRat 1 2, 1, some (mkRat 39 10)⟩ : TestVals) = ⟨t, tol, c, some v⟩ :=
  c1_found_value_is_first_qualifying_line ["iters 2   0  21  6  3.9"]
    [("iters 2", 4, mkRat 1 2, 1)] "iters 2" ⟨4, mkRat 1 2, 1, some (mkRat 39 10)⟩
    (by decide)

/-- C2: a line containing a pending spec's name whose designated column does
not parse as a float (or is out of range) leaves that spec pending after the
line; the same line still claims every other qualifying spec, and the spec
itself can still be claimed from a later line of the log. -/
theorem c2_nonnumeric_line_keeps_spec_pending
    (l : String) (ls : List String) (m : List (String × TestVals))
    (n : String) (tv : TestVals)
    (hm : (n, tv) ∈ m) (hc : strContains l n = true) (he : extract l tv.col = none) :
    (n, tv) ∈ (scanLine l m).1
    ∧ (∀ n2 tv2 w, (n2, tv2) ∈ m → strContains l n2 = true →
        extract l tv2.col = some w →
        (n2, { tv2 with testVal := some w }) ∈ (scanLine l m).2)
    ∧ (∀ v, firstHit n tv.col ls = some v →
        (n, { tv with testVal := some v }) ∈ (scanLog (l :: ls) ⟨m, []⟩).found) := by
  have hhit : lineHit l n tv.col = none := by simp [lineHit, hc, he]
  refine ⟨scanLine_mem_fst.mpr ⟨hm, hhit⟩, ?_, ?_⟩
  · intro n2 tv2 w hm2 hc2 he2
    exact scanLine_mem_snd.mpr ⟨(n2, tv2), hm2, w, by simp [lineHit, hc2, he2], rfl⟩
  · intro v hfh
    have hstep : scanLog (l :: ls) ⟨m, []⟩ =
        scanLog ls ⟨(scanLine l m).1, [] ++ (scanLine l m).2⟩ := rfl
    rw [hstep]
    exact scanLog_found_of_firstHit ls _ (n, tv) v
      (scanLine_mem_fst.mpr ⟨hm, hhit⟩) hfh

/-- C2 witness: `"total solver time : abc"` contains the spec's name but its
last token is non-numeric, so the spec stays pending there and is claimed by
the later line `"total solver time : 4.5"` with value 4.5. -/
theorem c2_witness :
    (("total solver time", (⟨mkRat 1 10, 2, 1, none⟩ : TestVals)) ∈
      (scanLine "total solver time : abc"
        [("total solver time", ⟨mkRat 1 10, 2, 1, none⟩)]).1)
    ∧ (∀ n2 tv2 w,
        (n2, tv2) ∈ [(("total solver time" : String), (⟨mkRat 1 10, 2, 1, none⟩ : TestVals))] →
        strContains "total solver time : abc" n2 = true →
        extract "total solver time : abc" tv2.col = some w →
        (n2, { tv2 with testVal := some w }) ∈
          (scanLine "total solver time : abc"
            [("total solver time", ⟨mkRat 1 10, 2, 1, none⟩)]).2)
    ∧ (∀ v, firstHit "total solver time" (⟨mkRat 1 10, 2, 1, none⟩ : TestVals).col
          ["total solver time : 4.5"] = some v →
        ("total solver time", { (⟨mkRat 1 10, 2, 1, none⟩ : TestVals) with testVal := some v }) ∈
          (scanLog ("total solver time : abc" :: ["total solver time : 4.5"])
            ⟨[("total solver time", ⟨mkRat 1 10, 2, 1, none⟩)], []⟩).found) :=
  c2_nonnumeric_line_keeps_spec_pending "total solver time : abc"
    ["total solver time : 4.5"]
    [("total solver time", ⟨mkRat 1 10, 2, 1, none⟩)]
    "total solver time" ⟨mkRat 1 10, 2, 1, none⟩
    (by decide) (by decide) (by decide)

/-- C4: after any scan over any log, the declared names are exactly
partitioned between `missingTests` and `foundTests` (a permutation with no
duplicate), and a found entry persists unchanged through any further
scanning, its name never returning to the pending side. -/
theorem c4_partition_invariant
    (lines : List String) (m : List (String × TestVals))
    (hn : (m.map Prod.fst).Nodup) :
    List.Perm
      ((scanLog lines ⟨m, []⟩).missing.map Prod.fst ++
        (scanLog lines ⟨m, []⟩).found.map Prod.fst) (m.map Prod.fst)
    ∧ ((scanLog lines ⟨m, []⟩).missing.map Prod.fst ++
        (scanLog lines ⟨m, []⟩).found.map Prod.fst).Nodup
    ∧ ∀ (more : List String) (n : String) (tv : TestVals),
        (n, tv) ∈ (scanLog lines ⟨m, []⟩).found →
        (n, tv) ∈ (scanLog more (scanLog lines ⟨m, []⟩)).found ∧
        n ∉ (scanLog more (scanLog lines ⟨m, []⟩)).missing.map Prod.fst := by
  have hperm : List.Perm
      ((scanLog lines ⟨m, []⟩).missing.map Prod.fst ++
        (scanLog lines ⟨m, []⟩).found.map Prod.fst) (m.map Prod.fst) := by
    have h := scanLog_names_perm lines ⟨m, []⟩
    simpa using h
  have hnd := hperm.symm.nodup hn
  refine ⟨hperm, hnd, ?_⟩
  intro more n tv hf
  have hmem := scanLog_found_mono more _ _ hf
  refine ⟨hmem, ?_⟩
  have hperm2 := scanLog_names_perm more (scanLog lines ⟨m, []⟩)
  have hnd2 := hperm2.symm.nodup hnd
  have hdisj := (List.nodup_append.mp hnd2).2.2
  intro hmiss
  exact hdisj hmiss (List.mem_map.mpr ⟨(n, tv), hmem, rfl⟩)

/-- C4 witness: two distinct specs over a two-line log (one found, one still
missing) satisfy the partition and persistence conclusions. -/
theorem c4_witness :
    List.Perm
      ((scanLog ["a 2.5", "b x"] ⟨initTests [("a", 1, 2, 1), ("b", 0, 1, 1)], []⟩).missing.map Prod.fst ++
        (scanLog ["a 2.5", "b x"] ⟨initTests [("a", 1, 2, 1), ("b", 0, 1, 1)], []⟩).found.map Prod.fst)
      ((initTests [("a", 1, 2, 1), ("b", 0, 1, 1)]).map Prod.fst)
    ∧ ((scanLog ["a 2.5", "b x"] ⟨initTests [("a", 1, 2, 1), ("b", 0, 1, 1)], []⟩).missing.map Prod.fst ++
        (scanLog ["a 2.5", "b x"] ⟨initTests [("a", 1, 2, 1), ("b", 0, 1, 1)], []⟩).found.map Prod.fst).Nodup
    ∧ ∀ (more : List String) (n : String) (tv : TestVals),
        (n, tv) ∈ (scanLog ["a 2.5", "b x"] ⟨initTests [("a", 1, 2, 1), ("b", 0, 1, 1)], []⟩).found →
        (n, tv) ∈ (scanLog more (scanLog ["a 2.5", "b x"] ⟨initTests [("a", 1, 2, 1), ("b", 0, 1, 1)], []⟩)).found ∧
        n ∉ (scanLog more (scanLog ["a 2.5", "b x"] ⟨initTests [("a", 1, 2, 1), ("b", 0, 1, 1)], []⟩)).missing.map Prod.fst :=
  c4_partition_invariant ["a 2.5", "b x"] (initTests [("a", 1, 2, 1), ("b", 0, 1, 1)])
    (by decide)

/-- C7 counterexample: for the spec `('total solver time', 0.1, 0.05, 2)`
and the line `"... total solver time : 12.3 45.6"`, the recorded observed
value is 12.3 (the second-from-last token), not 45.6 as the claim states:
the entry with `testVal = 45.6` is not in `foundTests`. -/
theorem c7_counterexample :
    (runScan (some ["... total solver time : 12.3 45.6"])
        [("total solver time", mkRat 1 10, mkRat 1 20, 2)]).found
      = [("total solver time", ⟨mkRat 1 10, mkRat 1 20, 2, some (mkRat 123 10)⟩)]
    ∧ ("total solver time", (⟨mkRat 1 10, mkRat 1 20, 2, some (mkRat 456 10)⟩ : TestVals)) ∉
        (runScan (some ["... total solver time : 12.3 45.6"])
          [("total solver time", mkRat 1 10, mkRat 1 20, 2)]).found := by
  exact ⟨by decide, by decide⟩

/-- C7 amended: column 2 selects the second-from-last token `"12.3"`, so the
observed value recorded is 12.3; the check then fails out of tolerance
(no entry passes), since `|12.3 - 0.1| ≥ 0.05`; 45.6 is the last token, the
one column 1 would select. -/
theorem c7_amended_observed_is_second_from_last :
    pyIdx (pySplit "... total solver time : 12.3 45.6") (-(2 : Int)) = some "12.3"
    ∧ (runScan (some ["... total solver time : 12.3 45.6"])
        [("total solver time", mkRat 1 10, mkRat 1 20, 2)]).found
      = [("total solver time", ⟨mkRat 1 10, mkRat 1 20, 2, some (mkRat 123 10)⟩)]
    ∧ passedOf (runScan (some ["... total solver time : 12.3 45.6"])
        [("total solver time", mkRat 1 10, mkRat 1 20, 2)]) = []
    ∧ ¬ |(123 : ℚ)/10 - 1/10| < 1/20
    ∧ extract "... total solver time : 12.3 45.6" 1 = some (mkRat 456 10) := by
  refine ⟨by decide, by decide, by decide, ?_, by decide⟩
  norm_num
  rw [abs_of_nonneg (by norm_num : (0:ℚ) ≤ 61/5)]
  norm_num

/-- C10: a `ValueSpec` declared with column 0 extracts the first
whitespace-split token of a matching line (index 0), not a token counted
from the line's end, because Python's negation of 0 is 0: on
`"time 7.5 3.25"` extraction with column 0 fails (the first token `"time"`
is non-numeric) even though the last token parses, while column 1 yields
the last token's value 3.25. -/
theorem c10_column_zero_selects_first_token :
    (∀ line : String, extract line 0 =
      (match (pySplit line).get? 0 with | some tok => pyFloat tok | none => none))
    ∧ extract "time 7.5 3.25" 0 = none
    ∧ extract "time 7.5 3.25" 1 = some (mkRat 13 4) := by
  refine ⟨?_, by decide, by decide⟩
  intro line
  simp [extract, pyIdx]

/-- C9: on any subprocess stdout line containing `"Test Summary"`, the
adapter's log observer parses `numPass` and `numTotal` from either side of
the `/` in the line's fourth whitespace token, and the step result computed
from them is SUCCESS exactly when `numPass ≥ numTotal`. -/
theorem c9_adapter_parses_and_decides
    (st : Int × Int) (line tok a b : String) (p t : Int)
    (hline : strContains line "Test Summary" = true)
    (htok : (pySplit line).get? 3 = some tok)
    (ha : (pySplitSep '/' tok).get? 0 = some a)
    (hb : (pySplitSep '/' tok).get? 1 = some b)
    (hpa : pyInt a = some p)
    (hpb : pyInt b = some t) :
    outLineReceived st line = some (p, t) ∧
      (evaluateCommand p t = BuildResult.success ↔ t ≤ p) := by
  constructor
  · simp only [List.get?_eq_getElem?] at htok ha hb
    simp [outLineReceived, hline, htok, ha, hb, hpa, hpb]
  · unfold evaluateCommand
    split_ifs with hlt
    · constructor
      · intro heq
        exact absurd heq (by decide)
      · intro hle
        omega
    · have hle : t ≤ p := by omega
      simp [hle]

/-- C9 witness: the line `"Nek Test Summary: 5/7"` parses to
`numPass = 5`, `numTotal = 7`, and SUCCESS would need `7 ≤ 5`. -/
theorem c9_witness :
    outLineReceived (0, 0) "Nek Test Summary: 5/7" = some (5, 7) ∧
      (evaluateCommand 5 7 = BuildResult.success ↔ (7 : Int) ≤ 5) :=
  c9_adapter_parses_and_decides (0, 0) "Nek Test Summary: 5/7" "5/7" "5" "7" 5 7
    (by decide) (by decide) (by decide) (by decide) (by decide) (by decide)

/-! ## Lengths of the printed literals and output-shape lemmas -/

theorem len_skip1 : ("...Sorry, I must skip this test." : String).length = 32 := rfl

theorem len_skip2 :
    ("...The logfile is missing or doesn't have the correct name..." : String).length = 61 := rfl

theorem len_banner :
    ("...I couldn't find all the requested value in the log file..." : String).length = 61 := rfl

theorem len_wnf : (" were not found..." : String).length = 18 := rfl

theorem len_dot : (" : ." : String).length = 4 := rfl

theorem len_F : (" : F " : String).length = 5 := rfl

theorem len_sp : (" " : String).length = 1 := rfl

theorem len_colon : (" : " : String).length = 3 := rfl

theorem len_dots : ("..." : String).length = 3 := rfl

theorem bkt_ne_exTail {ex r tail : String} (h : r.length + 2 ≠ tail.length) :
    bkt ex r ≠ ex ++ tail := by
  apply ne_of_length_ne
  rw [bkt_len, String.length_append]
  omega

theorem testPrintLine_len (ex n v : String) :
    (testPrintLine ex n v).length = ex.length + n.length + v.length + 6 := by
  simp [testPrintLine, bkt_len, String.length_append, len_sp, len_colon]
  omega

theorem notFoundLine_len (ex : String) (st : ScanState) :
    (notFoundLine ex st).length =
      ex.length + (joinSep ", " (st.missing.map Prod.fst)).length + 23 := by
  simp [notFoundLine, bkt_len, String.length_append, len_dots, len_wnf]
  omega

theorem not_summary_of_len {ex s : String}
    (h4 : s.length ≠ ex.length + 4) (h5 : s.length ≠ ex.length + 5) :
    isSummaryLine ex s = false := by
  unfold isSummaryLine
  rw [decide_eq_false_iff_not]
  rintro (he | he)
  · exact h4 (by rw [he, String.length_append, len_dot])
  · exact h5 (by rw [he, String.length_append, len_F])

theorem length_filter_eq_iff_all (p : α → Bool) (l : List α) :
    ((l.filter p).length = l.length) ↔ l.all p = true := by
  induction l with
  | nil => simp
  | cons a l ih =>
    cases hp : p a with
    | true => simp [List.filter_cons, hp, ih]
    | false =>
      simp [List.filter_cons, hp]
      have hle := List.length_filter_le p l
      omega

/-- The source's `F`-branch condition is exactly "not (no missing test and
every found value within tolerance)". -/
theorem tearDown_cond_iff (st : ScanState) :
    ((passedOf st).length < st.found.length ∨ 0 < st.missing.length) ↔
      ¬(st.missing = [] ∧ st.found.all (fun p => inTol p.2) = true) := by
  have hle := List.length_filter_le (fun p => inTol p.2) st.found
  have h1 := length_filter_eq_iff_all (fun p => inTol p.2) st.found
  constructor
  · rintro (hlt | hpos) ⟨hmiss, hall⟩
    · rw [← h1] at hall
      unfold passedOf at hlt
      omega
    · rw [hmiss] at hpos
      simp at hpos
  · intro hnot
    by_cases hmiss : st.missing = []
    · left
      have hall : ¬ st.found.all (fun p => inTol p.2) = true :=
        fun h => hnot ⟨hmiss, h⟩
      rw [← h1] at hall
      unfold passedOf
      omega
    · right
      exact List.length_pos.mpr hmiss

theorem testPrints_shape {ex : String} {d : List (String × TestVals)} {st : ScanState}
    {s : String} (h : s ∈ testPrints ex d st) :
    ∃ n v, s = testPrintLine ex n v := by
  unfold testPrints at h
  rcases List.mem_filterMap.mp h with ⟨p, hp, hf⟩
  cases hl : st.found.lookup p.2.1 with
  | none =>
    rw [hl] at hf
    cases hf
  | some tv =>
    rw [hl] at hf
    injection hf with hf2
    exact ⟨p.2.1, _, hf2.symm⟩

theorem testPrints_found_nil (ex : String) (d : List (String × TestVals))
    (m : List (String × TestVals)) : testPrints ex d ⟨m, []⟩ = [] := by
  unfold testPrints
  rw [List.filterMap_eq_nil_iff]
  intro p hp
  rfl

/-- Everything `RunTestClass.tearDownClass` prints is the banner, the
missing-names line, or one of the two summary lines. -/
theorem mem_runTearDown {ex : String} {st : ScanState} {k : Nat} {s : String}
    (h : s ∈ runTearDown ex st k) :
    s = bkt ex "...I couldn't find all the requested value in the log file..."
    ∨ s = notFoundLine ex st
    ∨ s = ex ++ " : F "
    ∨ s = ex ++ " : ." := by
  unfold runTearDown at h
  rcases List.mem_append.mp h with h1 | h2
  · split_ifs at h1 with hc
    · simp only [List.mem_cons, List.not_mem_nil, or_false] at h1
      rcases h1 with h1 | h1
      · exact Or.inl h1
      · exact Or.inr (Or.inl h1)
    · exact absurd h1 (List.not_mem_nil s)
  · split_ifs at h2 with hc
    · simp only [List.mem_cons, List.not_mem_nil, or_false] at h2
      exact Or.inr (Or.inr (Or.inl h2))
    · simp only [List.mem_cons, List.not_mem_nil, or_false] at h2
      exact Or.inr (Or.inr (Or.inr h2))

theorem dot_ne_banner (ex : String) :
    (ex ++ " : .") ≠ bkt ex "...I couldn't find all the requested value in the log file..." :=
  fun he => (bkt_ne_exTail (by rw [len_banner, len_dot]; omega)) he.symm

theorem F_ne_banner (ex : String) :
    (ex ++ " : F ") ≠ bkt ex "...I couldn't find all the requested value in the log file..." :=
  fun he => (bkt_ne_exTail (by rw [len_banner, len_F]; omega)) he.symm

theorem dot_ne_notFound (ex : String) (st : ScanState) :
    (ex ++ " : .") ≠ notFoundLine ex st := by
  apply ne_of_length_ne
  rw [String.length_append, len_dot, notFoundLine_len]
  omega

theorem F_ne_notFound (ex : String) (st : ScanState) :
    (ex ++ " : F ") ≠ notFoundLine ex st := by
  apply ne_of_length_ne
  rw [String.length_append, len_F, notFoundLine_len]
  omega

theorem dot_ne_F (ex : String) : (ex ++ " : .") ≠ (ex ++ " : F ") := by
  apply ne_of_length_ne
  rw [String.length_append, String.length_append, len_dot, len_F]
  omega

theorem dot_mem_runTearDown_iff (ex : String) (st : ScanState) (k : Nat) :
    (ex ++ " : .") ∈ runTearDown ex st k ↔
      ¬(k < st.found.length ∨ 0 < st.missing.length) := by
  unfold runTearDown
  constructor
  · intro h
    rcases List.mem_append.mp h with h1 | h2
    · exfalso
      split_ifs at h1 with hc
      · simp only [List.mem_cons, List.not_mem_nil, or_false] at h1
        rcases h1 with h1 | h1
        · exact dot_ne_banner ex h1
        · exact dot_ne_notFound ex st h1
      · exact absurd h1 (List.not_mem_nil _)
    · split_ifs at h2 with hc
      · simp only [List.mem_cons, List.not_mem_nil, or_false] at h2
        exact absurd h2 (dot_ne_F ex)
      · exact hc
  · intro hc
    apply List.mem_append_right
    rw [if_neg hc]
    simp

theorem F_mem_runTearDown_iff (ex : String) (st : ScanState) (k : Nat) :
    (ex ++ " : F ") ∈ runTearDown ex st k ↔
      (k < st.found.length ∨ 0 < st.missing.length) := by
  unfold runTearDown
  constructor
  · intro h
    rcases List.mem_append.mp h with h1 | h2
    · exfalso
      split_ifs at h1 with hc
      · simp only [List.mem_cons, List.not_mem_nil, or_false] at h1
        rcases h1 with h1 | h1
        · exact F_ne_banner ex h1
        · exact F_ne_notFound ex st h1
      · exact absurd h1 (List.not_mem_nil _)
    · split_ifs at h2 with hc
      · exact hc
      · simp only [List.mem_cons, List.not_mem_nil, or_false] at h2
        exact absurd h2.symm (dot_ne_F ex)
  · intro hc
    apply List.mem_append_right
    rw [if_pos hc]
    simp

theorem nf_mem_runTearDown_iff (ex : String) (st : ScanState) (k : Nat) :
    notFoundLine ex st ∈ runTearDown ex st k ↔ 0 < st.missing.length := by
  unfold runTearDown
  constructor
  · intro h
    rcases List.mem_append.mp h with h1 | h2
    · by_contra hc
      rw [if_neg hc] at h1
      exact absurd h1 (List.not_mem_nil _)
    · exfalso
      split_ifs at h2 with hc
      · simp only [List.mem_cons, List.not_mem_nil, or_false] at h2
        exact F_ne_notFound ex st h2.symm
      · simp only [List.mem_cons, List.not_mem_nil, or_false] at h2
        exact dot_ne_notFound ex st h2.symm
  · intro hc
    apply List.mem_append_left
    rw [if_pos hc]
    simp

/-- Core of C5, for an arbitrary example state: the concatenation of the
generated methods' prints and the tearDown report has exactly one summary
line, which is `"<ex> : ."` precisely when nothing is missing and every
found value is within tolerance, and the missing-names report appears
precisely when something is missing. -/
theorem c5_core (ex : String) (d : List (String × TestVals)) (st : ScanState) :
    ((testPrints ex d st ++ runTearDown ex st (passedOf st).length).filter
        (isSummaryLine ex)).length = 1
    ∧ ((ex ++ " : .") ∈ testPrints ex d st ++ runTearDown ex st (passedOf st).length ↔
        (st.missing = [] ∧ st.found.all (fun p => inTol p.2) = true))
    ∧ ((ex ++ " : F ") ∈ testPrints ex d st ++ runTearDown ex st (passedOf st).length ↔
        ¬(st.missing = [] ∧ st.found.all (fun p => inTol p.2) = true))
    ∧ (notFoundLine ex st ∈ testPrints ex d st ++ runTearDown ex st (passedOf st).length ↔
        st.missing ≠ []) := by
  have hfil1 : (testPrints ex d st).filter (isSummaryLine ex) = [] := by
    rw [List.filter_eq_nil_iff]
    intro s hs
    rcases testPrints_shape hs with ⟨n, v, rfl⟩
    have hns : isSummaryLine ex (testPrintLine ex n v) = false :=
      not_summary_of_len (by rw [testPrintLine_len]; omega)
        (by rw [testPrintLine_len]; omega)
    simp [hns]
  have hsumF : isSummaryLine ex (ex ++ " : F ") = true := by simp [isSummaryLine]
  have hsumDot : isSummaryLine ex (ex ++ " : .") = true := by simp [isSummaryLine]
  have hbannerNS : isSummaryLine ex
      (bkt ex "...I couldn't find all the requested value in the log file...") = false :=
    not_summary_of_len (by rw [bkt_len, len_banner]; omega)
      (by rw [bkt_len, len_banner]; omega)
  have hnfNS : isSummaryLine ex (notFoundLine ex st) = false :=
    not_summary_of_len (by rw [notFoundLine_len]; omega)
      (by rw [notFoundLine_len]; omega)
  refine ⟨?_, ?_, ?_, ?_⟩
  · rw [List.filter_append, hfil1, List.nil_append]
    unfold runTearDown
    rw [List.filter_append]
    split_ifs with hm hp hp
    · simp [hbannerNS, hnfNS, hsumF]
    · simp [hbannerNS, hnfNS, hsumDot]
    · simp [hsumF]
    · simp [hsumDot]
  · rw [List.mem_append]
    constructor
    · rintro (h | h)
      · exfalso
        rcases testPrints_shape h with ⟨n, v, he⟩
        have hl := congrArg String.length he
        rw [String.length_append, len_dot, testPrintLine_len] at hl
        omega
      · have hc := (dot_mem_runTearDown_iff ex st _).mp h
        rw [tearDown_cond_iff] at hc
        exact not_not.mp hc
    · intro hA
      refine Or.inr ?_
      rw [dot_mem_runTearDown_iff, tearDown_cond_iff]
      exact not_not.mpr hA
  · rw [List.mem_append]
    constructor
    · rintro (h | h)
      · exfalso
        rcases testPrints_shape h with ⟨n, v, he⟩
        have hl := congrArg String.length he
        rw [String.length_append, len_F, testPrintLine_len] at hl
        omega
      · have hc := (F_mem_runTearDown_iff ex st _).mp h
        rw [tearDown_cond_iff] at hc
        exact hc
    · intro hA
      refine Or.inr ?_
      rw [F_mem_runTearDown_iff, tearDown_cond_iff]
      exact hA
  · rw [List.mem_append]
    constructor
    · rintro (h | h)
      · exfalso
        rcases testPrints_shape h with ⟨n, v, he⟩
        unfold notFoundLine testPrintLine at he
        have hr := bkt_inj he
        exact space_ne_dots _ _ hr.symm
      · exact List.length_pos.mp ((nf_mem_runTearDown_iff ex st _).mp h)
    · intro hne
      exact Or.inr ((nf_mem_runTearDown_iff ex st _).mpr (List.length_pos.mpr hne))

/-- C5: for every example with a readable log, the example's stdout contains
exactly one summary line: `"<ex> : ."` exactly when every declared spec was
found and within tolerance, otherwise `"<ex> : F "`; and the line listing
the never-found specs (distinct from the summary and from any
found-value print) appears exactly when some spec was never found. -/
theorem c5_one_summary_line_per_example
    (ex lf : String) (lines : List String) (specs : List (String × ℚ × ℚ × Nat)) :
    ((runOutput ex lf (some lines) specs).filter (isSummaryLine ex)).length = 1
    ∧ ((ex ++ " : .") ∈ runOutput ex lf (some lines) specs ↔
        ((runScan (some lines) specs).missing = [] ∧
          (runScan (some lines) specs).found.all (fun p => inTol p.2) = true))
    ∧ ((ex ++ " : F ") ∈ runOutput ex lf (some lines) specs ↔
        ¬((runScan (some lines) specs).missing = [] ∧
          (runScan (some lines) specs).found.all (fun p => inTol p.2) = true))
    ∧ (notFoundLine ex (runScan (some lines) specs) ∈ runOutput ex lf (some lines) specs ↔
        (runScan (some lines) specs).missing ≠ []) :=
  c5_core ex (initTests specs) (runScan (some lines) specs)

/-- The `IOError` skip diagnostic is never printed when the log is readable:
it differs from every found-value print, from the tearDown lines and from
both summary lines. -/
theorem skip1_not_in_readable (ex lf : String) (lines : List String)
    (specs : List (String × ℚ × ℚ × Nat)) :
    bkt ex "...Sorry, I must skip this test." ∉ runOutput ex lf (some lines) specs := by
  intro h
  have h2 : bkt ex "...Sorry, I must skip this test." ∈
      testPrints ex (initTests specs) (runScan (some lines) specs) ++
      runTearDown ex (runScan (some lines) specs)
        (passedOf (runScan (some lines) specs)).length := h
  rcases List.mem_append.mp h2 with h3 | h3
  · rcases testPrints_shape h3 with ⟨n, v, he⟩
    unfold testPrintLine at he
    have hlit : ("...Sorry, I must skip this test." : String) =
        "..." ++ "Sorry, I must skip this test." := rfl
    rw [hlit] at he
    have hr := bkt_inj he
    exact space_ne_dots _ _ hr.symm
  · rcases mem_runTearDown h3 with h4 | h4 | h4 | h4
    · have hr := bkt_inj h4
      exact absurd hr (by decide)
    · unfold notFoundLine at h4
      have hr := bkt_inj h4
      exact notFound_rest_ne_skip _ hr.symm
    · exact bkt_ne_exTail (by rw [len_skip1, len_F]; omega) h4
    · exact bkt_ne_exTail (by rw [len_skip1, len_dot]; omega) h4

set_option maxRecDepth 4000 in
/-- C3 counterexample: for the `__main__` example `"Example Run missingLog"`
with its unreadable log `./srlLog/foobar`, no printed line contains the log
path — the diagnostics name the example and say the logfile is missing, but
never name the log. -/
theorem c3_counterexample :
    ((runOutput "Example Run missingLog" "./srlLog/foobar" none missLogTests).all
      (fun msg => !(strContains msg "./srlLog/foobar"))) = true := by
  decide

/-- C3 amended: with an unreadable log every declared spec stays pending and
none is found; the output contains the two skip diagnostics (naming the
example and stating the logfile is missing or misnamed — the log path itself
is not printed), the example's summary is `"<ex> : F "` and never
`"<ex> : ."`; and the skip diagnostic is printed for no readable-log run,
keeping it distinct from out-of-tolerance failures. -/
theorem c3_missing_log_all_pending
    (ex lf : String) (specs : List (String × ℚ × ℚ × Nat)) (hs : specs ≠ []) :
    (runScan none specs).missing = initTests specs
    ∧ (runScan none specs).found = []
    ∧ bkt ex "...Sorry, I must skip this test." ∈ runOutput ex lf none specs
    ∧ bkt ex "...The logfile is missing or doesn't have the correct name..." ∈
        runOutput ex lf none specs
    ∧ (ex ++ " : F ") ∈ runOutput ex lf none specs
    ∧ (ex ++ " : .") ∉ runOutput ex lf none specs
    ∧ ∀ lines, bkt ex "...Sorry, I must skip this test." ∉
        runOutput ex lf (some lines) specs := by
  have hmlen : 0 < (initTests specs).length := by
    rw [initTests, List.length_map]
    exact List.length_pos.mpr hs
  have hrt : ∀ k, runTearDown ex ⟨initTests specs, []⟩ k =
      [bkt ex "...I couldn't find all the requested value in the log file...",
       notFoundLine ex ⟨initTests specs, []⟩, ex ++ " : F "] := by
    intro k
    unfold runTearDown
    rw [if_pos hmlen, if_pos (Or.inr hmlen)]
    rfl
  have hout : runOutput ex lf none specs =
      skipMsgs ex ++
        [bkt ex "...I couldn't find all the requested value in the log file...",
         notFoundLine ex ⟨initTests specs, []⟩, ex ++ " : F "] := by
    show (skipMsgs ex ++ testPrints ex (initTests specs) ⟨initTests specs, []⟩) ++
        runTearDown ex ⟨initTests specs, []⟩
          (passedOf ⟨initTests specs, []⟩).length = _
    rw [testPrints_found_nil, List.append_nil, hrt]
  refine ⟨rfl, rfl, ?_, ?_, ?_, ?_, ?_⟩
  · rw [hout]
    simp [skipMsgs]
  · rw [hout]
    simp [skipMsgs]
  · rw [hout]
    simp [skipMsgs]
  · rw [hout]
    intro h
    simp only [skipMsgs, List.cons_append, List.nil_append, List.mem_cons,
      List.not_mem_nil, or_false] at h
    rcases h with h | h | h | h | h
    · exact bkt_ne_exTail (by rw [len_skip1, len_dot]; omega) h.symm
    · exact bkt_ne_exTail (by rw [len_skip2, len_dot]; omega) h.symm
    · exact dot_ne_banner ex h
    · exact dot_ne_notFound ex ⟨initTests specs, []⟩ h
    · exact dot_ne_F ex h
  · intro lines
    exact skip1_not_in_readable ex lf lines specs

/-- C3 witness: the `__main__` missing-log example (two declared specs,
unreadable log) instantiates the amended claim. -/
theorem c3_witness :
    (runScan none missLogTests).missing = initTests missLogTests
    ∧ (runScan none missLogTests).found = []
    ∧ bkt "Example Run missingLog" "...Sorry, I must skip this test." ∈
        runOutput "Example Run missingLog" "./srlLog/foobar" none missLogTests
    ∧ bkt "Example Run missingLog"
        "...The logfile is missing or doesn't have the correct name..." ∈
        runOutput "Example Run missingLog" "./srlLog/foobar" none missLogTests
    ∧ ("Example Run missingLog" ++ " : F ") ∈
        runOutput "Example Run missingLog" "./srlLog/foobar" none missLogTests
    ∧ ("Example Run missingLog" ++ " : .") ∉
        runOutput "Example Run missingLog" "./srlLog/foobar" none missLogTests
    ∧ ∀ lines, bkt "Example Run missingLog" "...Sorry, I must skip this test." ∉
        runOutput "Example Run missingLog" "./srlLog/foobar" (some lines) missLogTests :=
  c3_missing_log_all_pending "Example Run missingLog" "./srlLog/foobar" missLogTests
    (by decide)

/-- C6: a `MustNotContainPhrase` check fails exactly when some line of the
readable log contains the forbidden phrase; with an unreadable log the check
does not fail (`foundPhrases` stays empty, so `assertNotIn` passes) and the
explicit missing-log diagnostics are printed. -/
theorem c6_must_not_contain_phrase (ex lf kw : String) (lines : List String) :
    (dfdCheckFails kw (some lines) = true ↔ ∃ l ∈ lines, strContains l kw = true)
    ∧ dfdCheckFails kw none = false
    ∧ bkt ex "...Sorry, I must skip this test." ∈ dfdOutput ex lf kw none
    ∧ bkt ex "...The logfile is missing or doesn't have the correct name..." ∈
        dfdOutput ex lf kw none := by
  refine ⟨?_, rfl, ?_, ?_⟩
  · unfold dfdCheckFails dfdFoundPhrases phraseFound
    cases hany : lines.any (fun l => strContains l kw) with
    | true =>
      have hx := List.any_eq_true.mp hany
      simp only [hany, if_true, List.contains_cons]
      constructor
      · intro _
        exact hx
      · intro _
        simp
    | false =>
      simp only [hany, Bool.false_eq_true, if_false]
      constructor
      · intro hcon
        exact Bool.noConfusion hcon
      · intro hex
        have hc := List.any_eq_true.mpr hex
        rw [hany] at hc
        cases hc
  · show bkt ex "...Sorry, I must skip this test." ∈ skipMsgs ex ++ [ex ++ " : F "]
    simp [skipMsgs]
  · show bkt ex "...The logfile is missing or doesn't have the correct name..." ∈
      skipMsgs ex ++ [ex ++ " : F "]
    simp [skipMsgs]

set_option maxRecDepth 10000 in
/-- C8 (evaluation of the code): the `__main__` harness run (here with every
log unreadable, so the whole output is closed) prints its section headers,
per-example diagnostics and per-example summary lines, but no line
containing `"Test Summary"`; the adapter's counters therefore keep their
initial `0/0` and its step result is SUCCESS regardless of failures. -/
theorem c8_no_test_summary_line :
    ((mainOutput none none none none none none none).all
      (fun msg => !(strContains msg "Test Summary"))) = true
    ∧ evaluateCommand 0 0 = BuildResult.success := by
  exact ⟨by decide, by decide⟩
